import Mathlib

/-!
Verification development for the `synack-mission-bot` repository
(`mission_bot.go`).

The program is a pair of polling loops over an HTTP API.  The HTTP
boundary is modelled as an oracle: each run is parameterised by the
finite sequence of responses the platform would return.  All control
flow (status-code switches, the `strings.Contains` dispatch on error
messages, the consecutive-403 counter, the `LoadOrStore` dedup gate,
the 429 retry-by-recursion) is translated directly from the Go source.

Wall-clock sleeps are not modelled as time; where a claim is about a
wait, the seconds passed to `time.Sleep` are recorded as data.
Stdout/stderr logging is modelled only where a claim mentions it
(as recorded events); the goroutine interleaving of the unbuffered
token channel does not affect any of the per-loop control flow
verified here, so a token send/refresh is recorded as an event.
-/

namespace MissionBot

/-- Substring search on character lists: does `l` start with `pre`?
Models the prefix test underlying Go `strings.Contains`. -/
def listHasPrefix : List Char → List Char → Bool
  | _, [] => true
  | [], _ :: _ => false
  | c :: cs, d :: ds => c = d && listHasPrefix cs ds

/-- Does `sub` occur as a contiguous substring of `l`? -/
def listHasSub : List Char → List Char → Bool
  | [], sub => sub.isEmpty
  | c :: cs, sub => listHasPrefix (c :: cs) sub || listHasSub cs sub

/-- Go `strings.Contains s sub`. -/
def goContains (s sub : String) : Bool :=
  listHasSub s.data sub.data

/-- Task structure decoded from the tasks endpoint (`Task` in the source). -/
structure Task where
  id : String
  campaignUid : String
  listingUid : String
  organizationUid : String
deriving DecidableEq

/-- Error message returned by `postClaimTask` for a given HTTP status of the
claim response; `none` on 201 (success).  Strings are the exact `fmt.Errorf`
formats of the source. -/
def claimMsg (s : Nat) : Option String :=
  if s = 201 then none
  else if s = 412 then some "Mission cannot be claimed anymore (412)"
  else if s = 401 then some "Unauthorized (401)"
  else if s = 403 then some "Failed to claim task, status code: 403"
  else some ("Failed to claim task, status code: " ++ toString s)

/-- Observable events of the mission poller: each attempted claim (with the
HTTP status the platform answered) and each fetch-level error message. -/
inductive Ev where
  | claim (s : Nat)
  | fetchErr (msg : String)
deriving DecidableEq

/-- How a pass over one fetched batch of tasks ends in `mainLoop`:
the `for` loop ran to completion carrying counter `cnt`; it was left by the
`break` of the 401 branch (after which the counter is 0); or the function
returned out of the 403-threshold branch (`halt`). -/
inductive BatchRes where
  | done (cnt : Nat)
  | broke
  | halt
deriving DecidableEq

structure BatchOut where
  res : BatchRes
  evs : List Ev
deriving DecidableEq

/-- The claim loop of `mainLoop` (`for _, task := range tasks`), indexed by
the status codes the claim requests receive.  `cnt` is
`consecutive403Count`.  Dispatch is on the error strings via
`strings.Contains`, exactly as in the source. -/
def runBatch (cnt : Nat) : List Nat → BatchOut
  | [] => ⟨.done cnt, []⟩
  | s :: rest =>
    match claimMsg s with
    | none =>
      let o := runBatch 0 rest
      ⟨o.res, .claim s :: o.evs⟩
    | some msg =>
      if goContains msg "403" then
        if cnt + 1 ≥ 5 then ⟨.halt, [.claim s]⟩
        else
          let o := runBatch (cnt + 1) rest
          ⟨o.res, .claim s :: o.evs⟩
      else if goContains msg "401" then ⟨.broke, [.claim s]⟩
      else
        let o := runBatch cnt rest
        ⟨o.res, .claim s :: o.evs⟩

/-- One fetch cycle's outcome as seen by `mainLoop`: either `getTasks`
returned a batch (each task paired here with the status its claim request
will receive), or it returned an error message. -/
inductive FetchResult where
  | ok (batch : List Nat)
  | err (msg : String)
deriving DecidableEq

structure LoopOut where
  term : Bool
  evs : List Ev
deriving DecidableEq

/-- `mainLoop`, run over a finite sequence of fetch outcomes.  `term = true`
means the Go function executed `return` (the graceful stop); `term = false`
means the oracle sequence was exhausted with the loop still running. -/
def mainLoopRun (cnt : Nat) : List FetchResult → LoopOut
  | [] => ⟨false, []⟩
  | .err msg :: rest =>
    let c := if goContains msg "401" then 0 else cnt
    let o := mainLoopRun c rest
    ⟨o.term, .fetchErr msg :: o.evs⟩
  | .ok batch :: rest =>
    let b := runBatch cnt batch
    match b.res with
    | .halt => ⟨true, b.evs⟩
    | .broke =>
      let o := mainLoopRun 0 rest
      ⟨o.term, b.evs ++ o.evs⟩
    | .done c =>
      let o := mainLoopRun c rest
      ⟨o.term, b.evs ++ o.evs⟩

/-! ## Request-level model of the 429 retry-by-recursion (`getTasks`, `signupTarget`) -/

/-- Go `strconv.Atoi`: optional sign followed by a non-empty digit string.
(Machine-width overflow on absurdly long inputs is not modelled.) -/
def goAtoi (s : String) : Option Int :=
  match s.data with
  | [] => none
  | c :: cs =>
    let p := if c = '-' then ((true : Bool), cs)
             else if c = '+' then (false, cs)
             else (false, c :: cs)
    if p.2.isEmpty then none
    else if p.2.all Char.isDigit then
      let n : Nat := p.2.foldl (fun a d => a * 10 + (d.toNat - 48)) 0
      some (if p.1 then -(n : Int) else (n : Int))
    else none

/-- One HTTP response of the tasks endpoint: status, `Retry-After` header
(`""` when absent, as Go `Header.Get` reports it), and the decoded body for
the 200 case. -/
structure TasksResp where
  status : Nat
  retryAfter : String
  body : List Task
deriving DecidableEq

/-- Seconds slept by the 429 branch of `getTasks`: the parsed `Retry-After`
value if the header is present and parses, else the fixed 30-second
fallback. -/
def retryWaitTasks (retryAfter : String) : Int :=
  if retryAfter = "" then 30
  else
    match goAtoi retryAfter with
    | some secs => secs
    | none => 30

/-- Non-429 response handling of `getTasks` (the 200/401/default cases of
its `switch`). -/
def handleTasksResp (r : TasksResp) : Except String (List Task) :=
  if r.status = 200 then .ok r.body
  else if r.status = 401 then .error "unauthorized (401)"
  else .error ("failed to retrieve tasks, status code: " ++ toString r.status)

/-- `getTasks`, run against a finite list of scripted responses; each HTTP
request consumes one response (an exhausted script is a transport error,
the `client.Do` failure path).  Returns the final result, the number of
requests issued, and the seconds slept before each retry.  The 429 case
recurses on the remaining script, exactly like the Go
`return getTasks(token)`. -/
def getTasksReq : List TasksResp → Except String (List Task) × Nat × List Int
  | [] => (.error "network error", 1, [])
  | r :: rest =>
    if r.status = 429 then
      let o := getTasksReq rest
      (o.1, o.2.1 + 1, retryWaitTasks r.retryAfter :: o.2.2)
    else (handleTasksResp r, 1, [])

/-- Non-429 response handling of `signupTarget` (200 / 401 / default). -/
def handleSignupResp (slug : String) (s : Nat) : Except String Unit :=
  if s = 200 then .ok ()
  else if s = 401 then .error "unauthorized (401)"
  else .error ("failed to sign up for target " ++ slug ++ ", status code: " ++ toString s)

/-- `signupTarget`, run against a finite list of scripted response statuses;
the 429 branch sleeps a fixed 30 seconds and recurses
(`return signupTarget(token, slug)`). -/
def signupReq (slug : String) : List Nat → Except String Unit × Nat × List Int
  | [] => (.error "network error", 1, [])
  | s :: rest =>
    if s = 429 then
      let o := signupReq slug rest
      (o.1, o.2.1 + 1, (30 : Int) :: o.2.2)
    else (handleSignupResp slug s, 1, [])

/-! ## Target poller (`pollUnregisteredTargets`) -/

/-- Target structure decoded from the targets endpoint. -/
structure Target where
  slug : String
deriving DecidableEq

/-- Observable events of the target poller: each `signupTarget` call made,
each `refreshToken` prompt (together with the `tokenChan` broadcast that
follows it in the source), and each `log.Println`. -/
inductive TEv where
  | signup (slug : String)
  | refresh
  | logged (msg : String)
deriving DecidableEq

/-- Outcome of one `getUnregisteredTargets` cycle (post-retry): a decoded
target list or an error message. -/
inductive TFetch where
  | ok (targets : List Target)
  | err (msg : String)

/-- Error message of `signupTarget` for the eventual (post-429-retry)
status of a slug's signup call; `none` on 200. -/
def signupMsg (slug : String) (s : Nat) : Option String :=
  if s = 200 then none
  else if s = 401 then some "unauthorized (401)"
  else some ("failed to sign up for target " ++ slug ++ ", status code: " ++ toString s)

/-- Log events produced by the `if err != nil { log.Println(err) }` that
follows a signup call. -/
def signupLog (slug : String) (s : Nat) : List TEv :=
  match signupMsg slug s with
  | none => []
  | some msg => [.logged msg]

/-- The registration pass of `pollUnregisteredTargets`
(`for _, t := range targets`): `LoadOrStore` inserts the slug into the
known set, and only a slug that was not already present is signed up;
a signup error is only logged.  `known` models the `sync.Map`'s key set
(single writer, so a list suffices); `sres` gives the eventual signup
status for each slug. -/
def registerNew (sres : String → Nat) : List String → List Target → List String × List TEv
  | known, [] => (known, [])
  | known, t :: ts =>
    if t.slug ∈ known then registerNew sres known ts
    else
      let o := registerNew sres (t.slug :: known) ts
      (o.1, .signup t.slug :: (signupLog t.slug (sres t.slug) ++ o.2))

/-- One cycle of `pollUnregisteredTargets`: a fetch error containing "401"
triggers `refreshToken` (and the broadcast); any other fetch error is
logged; a successful fetch runs the registration pass. -/
def pollCycle (sres : String → Nat) (known : List String) : TFetch → List String × List TEv
  | .err msg =>
    if goContains msg "401" then (known, [.refresh])
    else (known, [.logged msg])
  | .ok ts => registerNew sres known ts

/-- `pollUnregisteredTargets` over a finite sequence of cycles, each cycle
scripted with its fetch outcome and its signup-status oracle. -/
def pollTargetsRun (known : List String) :
    List (TFetch × (String → Nat)) → List String × List TEv
  | [] => (known, [])
  | (f, sres) :: rest =>
    let c := pollCycle sres known f
    let o := pollTargetsRun c.1 rest
    (o.1, c.2 ++ o.2)

/-! ## `main` -/

/-- What `main` does after flag parsing: print usage and `os.Exit(1)`, or
start `pollUnregisteredTargets` and `mainLoop`, both with the `-t` value. -/
inductive MainOut where
  | usageExit (printedUsage : Bool) (code : Nat)
  | started (targetLoopToken missionLoopToken : String) (verbose : Bool)
deriving DecidableEq

/-- `main`: the `-t` flag value (the flag's default is `""`, so an absent
flag arrives here as the empty string) and the `-v` flag value. -/
def mainRun (tokenFlag : String) (verboseFlag : Bool) : MainOut :=
  if tokenFlag = "" then .usageExit true 1
  else .started tokenFlag tokenFlag verboseFlag

/-! ## `refreshToken` and Go `strings.TrimSpace` -/

/-- Go `unicode.IsSpace`. -/
def goIsSpace (c : Char) : Bool :=
  c = ' ' || c = '\t' || c = '\n' || c.toNat = 11 || c.toNat = 12 || c = '\r' ||
  c.toNat = 133 || c.toNat = 160 || c.toNat = 0x1680 ||
  (0x2000 ≤ c.toNat && c.toNat ≤ 0x200A) ||
  c.toNat = 0x2028 || c.toNat = 0x2029 || c.toNat = 0x202F ||
  c.toNat = 0x205F || c.toNat = 0x3000

/-- Go `strings.TrimSpace`: drop leading and trailing whitespace. -/
def goTrimSpace (s : String) : String :=
  ⟨((s.data.dropWhile goIsSpace).reverse.dropWhile goIsSpace).reverse⟩

/-- `refreshToken`, as a function of the line delivered by
`reader.ReadString('\n')` (the text up to and including the newline, or up
to EOF): it returns `strings.TrimSpace` of that line. -/
def refreshTokenModel (line : String) : String :=
  goTrimSpace line

/-! ## Specification-side definitions

These are written from the spec's words, to be compared with the runs of
the embedded code: streak counters over the observable event list, and the
per-slug registration count. -/

/-- Events the spec's §3 failure-counter description resets on, amended by
the 401 behaviour of the code: a successful claim (201) or an
authorization failure (a 401 claim outcome, or a fetch error mentioning
401). -/
def isReset : Ev → Bool
  | .claim s => s = 201 || s = 401
  | .fetchErr msg => goContains msg "401"

/-- A forbidden (403) claim response. -/
def isForbidden : Ev → Bool
  | .claim s => s = 403
  | .fetchErr _ => false

/-- Streak automaton: first component is the current run of forbidden
responses since the last reset, second is the longest such run seen. -/
def streakStep (p : Nat × Nat) (e : Ev) : Nat × Nat :=
  if isReset e then (0, p.2)
  else if isForbidden e then (p.1 + 1, Nat.max p.2 (p.1 + 1))
  else p

def streakFold (p : Nat × Nat) (evs : List Ev) : Nat × Nat :=
  evs.foldl streakStep p

/-- The amended termination condition: somewhere in the observed events, 5
forbidden claim responses occur with no intervening success and no
intervening authorization failure. -/
def specTerm (evs : List Ev) : Bool :=
  5 ≤ (streakFold (0, 0) evs).2

/-- Streak automaton of the claim exactly as stated: only a successful
claim (201) interrupts a run of forbidden responses. -/
def statedStep (p : Nat × Nat) (e : Ev) : Nat × Nat :=
  match e with
  | .claim 201 => (0, p.2)
  | .claim 403 => (p.1 + 1, Nat.max p.2 (p.1 + 1))
  | _ => p

/-- The claim as stated: 5 forbidden responses observed with no
intervening successful claim. -/
def specTermStated (evs : List Ev) : Bool :=
  5 ≤ (evs.foldl statedStep (0, 0)).2

/-- Batches whose claim statuses are HTTP-shaped (< 1000), so that the
`strings.Contains` dispatch on `"403"`/`"401"` coincides with the status
itself. -/
def validFetch : FetchResult → Bool
  | .ok b => b.all (fun s => s < 1000)
  | .err _ => true

def validTrace (tr : List FetchResult) : Bool :=
  tr.all validFetch

/-- Number of `signupTarget` calls for `slug` in a target-poller event
list. -/
def countSignup (slug : String) (evs : List TEv) : Nat :=
  evs.countP (fun e => e = TEv.signup slug)

/-! ## Classification of the `strings.Contains` dispatch -/

set_option maxRecDepth 100000 in
set_option maxHeartbeats 4000000 in
/-- For HTTP-shaped status codes, the substring tests `mainLoop` applies to
the default-case error message of `postClaimTask` detect exactly the
statuses 403 and 401. -/
theorem claimDefaultMsg_class : ∀ s < 1000,
    (goContains ("Failed to claim task, status code: " ++ toString s) "403" = decide (s = 403)) ∧
    (goContains ("Failed to claim task, status code: " ++ toString s) "401" = decide (s = 401)) := by
  decide

theorem msg412_not403 : goContains "Mission cannot be claimed anymore (412)" "403" = false := rfl

theorem msg412_not401 : goContains "Mission cannot be claimed anymore (412)" "401" = false := rfl

theorem msg401_not403 : goContains "Unauthorized (401)" "403" = false := rfl

theorem msg401_is401 : goContains "Unauthorized (401)" "401" = true := rfl

theorem msg403_is403 : goContains "Failed to claim task, status code: 403" "403" = true := rfl

/-! ## Unfolding lemmas for `runBatch` -/

theorem runBatch_nil (cnt : Nat) : runBatch cnt [] = ⟨.done cnt, []⟩ := rfl

theorem runBatch_success (cnt : Nat) (rest : List Nat) :
    runBatch cnt (201 :: rest) =
      ⟨(runBatch 0 rest).res, .claim 201 :: (runBatch 0 rest).evs⟩ := rfl

theorem runBatch_412 (cnt : Nat) (rest : List Nat) :
    runBatch cnt (412 :: rest) =
      ⟨(runBatch cnt rest).res, .claim 412 :: (runBatch cnt rest).evs⟩ := rfl

theorem runBatch_401 (cnt : Nat) (rest : List Nat) :
    runBatch cnt (401 :: rest) = ⟨.broke, [.claim 401]⟩ := rfl

theorem runBatch_403 (cnt : Nat) (rest : List Nat) :
    runBatch cnt (403 :: rest) =
      if cnt + 1 ≥ 5 then ⟨.halt, [.claim 403]⟩
      else ⟨(runBatch (cnt + 1) rest).res, .claim 403 :: (runBatch (cnt + 1) rest).evs⟩ := rfl

theorem runBatch_other (s : Nat) (hs : s < 1000) (h201 : s ≠ 201) (h412 : s ≠ 412)
    (h401 : s ≠ 401) (h403 : s ≠ 403) (cnt : Nat) (rest : List Nat) :
    runBatch cnt (s :: rest) =
      ⟨(runBatch cnt rest).res, .claim s :: (runBatch cnt rest).evs⟩ := by
  have hm : claimMsg s = some ("Failed to claim task, status code: " ++ toString s) := by
    simp [claimMsg, h201, h412, h401, h403]
  have h3 := (claimDefaultMsg_class s hs).1
  have h1 := (claimDefaultMsg_class s hs).2
  simp only [runBatch, hm, h3, h1, h403, h401, decide_False]
  simp [h403, h401]

theorem runBatch_403_lt (cnt : Nat) (rest : List Nat) (h : cnt + 1 < 5) :
    runBatch cnt (403 :: rest) =
      ⟨(runBatch (cnt + 1) rest).res, .claim 403 :: (runBatch (cnt + 1) rest).evs⟩ := by
  rw [runBatch_403, if_neg (by omega)]

theorem runBatch_403_ge (cnt : Nat) (rest : List Nat) (h : cnt + 1 ≥ 5) :
    runBatch cnt (403 :: rest) = ⟨.halt, [.claim 403]⟩ := by
  rw [runBatch_403, if_pos h]

/-! ## Unfolding lemmas for `mainLoopRun` -/

theorem mainLoopRun_nil (cnt : Nat) : mainLoopRun cnt [] = ⟨false, []⟩ := rfl

theorem mainLoopRun_err (cnt : Nat) (msg : String) (rest : List FetchResult) :
    mainLoopRun cnt (.err msg :: rest) =
      ⟨(mainLoopRun (if goContains msg "401" then 0 else cnt) rest).term,
        .fetchErr msg :: (mainLoopRun (if goContains msg "401" then 0 else cnt) rest).evs⟩ := rfl

theorem mainLoopRun_ok_halt (cnt : Nat) (batch : List Nat) (rest : List FetchResult)
    (h : (runBatch cnt batch).res = .halt) :
    mainLoopRun cnt (.ok batch :: rest) = ⟨true, (runBatch cnt batch).evs⟩ := by
  simp only [mainLoopRun, h]

theorem mainLoopRun_ok_broke (cnt : Nat) (batch : List Nat) (rest : List FetchResult)
    (h : (runBatch cnt batch).res = .broke) :
    mainLoopRun cnt (.ok batch :: rest) =
      ⟨(mainLoopRun 0 rest).term, (runBatch cnt batch).evs ++ (mainLoopRun 0 rest).evs⟩ := by
  simp only [mainLoopRun, h]

theorem mainLoopRun_ok_done (cnt : Nat) (batch : List Nat) (rest : List FetchResult) (c : Nat)
    (h : (runBatch cnt batch).res = .done c) :
    mainLoopRun cnt (.ok batch :: rest) =
      ⟨(mainLoopRun c rest).term, (runBatch cnt batch).evs ++ (mainLoopRun c rest).evs⟩ := by
  simp only [mainLoopRun, h]

/-- A batch pass that runs to completion composes with a subsequent batch
segment: the counter is threaded through and the events concatenate. -/
theorem runBatch_append (pre : List Nat) : ∀ (cnt c : Nat) (q : List Nat),
    (runBatch cnt pre).res = .done c →
    runBatch cnt (pre ++ q) =
      ⟨(runBatch c q).res, (runBatch cnt pre).evs ++ (runBatch c q).evs⟩ := by
  induction pre with
  | nil =>
    intro cnt c q h
    have hc : cnt = c := by simpa [runBatch_nil] using h
    subst hc
    simp [runBatch_nil]
  | cons s pre ih =>
    intro cnt c q h
    simp only [List.cons_append, runBatch] at h ⊢
    cases hm : claimMsg s with
    | none =>
      simp only [hm] at h ⊢
      have h' : (runBatch 0 pre).res = .done c := by simpa using h
      have hq := ih 0 c q h'
      simp only [List.append_eq] at hq ⊢
      rw [hq]
      simp
    | some msg =>
      simp only [hm] at h ⊢
      by_cases h3 : goContains msg "403" = true
      · by_cases h5 : cnt + 1 ≥ 5
        · simp only [h3, if_true, if_pos h5] at h
          simp at h
        · simp only [h3, if_true, if_neg h5] at h ⊢
          have h' : (runBatch (cnt + 1) pre).res = .done c := by simpa using h
          have hq := ih (cnt + 1) c q h'
          simp only [List.append_eq] at hq ⊢
          rw [hq]
          simp
      · by_cases h1 : goContains msg "401" = true
        · simp only [h3, h1, Bool.false_eq_true, if_false, if_true] at h
          simp at h
        · simp only [h3, h1, Bool.false_eq_true, if_false] at h ⊢
          have h' : (runBatch cnt pre).res = .done c := by simpa using h
          have hq := ih cnt c q h'
          simp only [List.append_eq] at hq ⊢
          rw [hq]
          simp

/-! ## Streak lemmas -/

theorem streakFold_nil (p : Nat × Nat) : streakFold p [] = p := rfl

theorem streakFold_cons (p : Nat × Nat) (e : Ev) (evs : List Ev) :
    streakFold p (e :: evs) = streakFold (streakStep p e) evs := rfl

theorem streakFold_append (p : Nat × Nat) (l1 l2 : List Ev) :
    streakFold p (l1 ++ l2) = streakFold (streakFold p l1) l2 := by
  simp [streakFold, List.foldl_append]

theorem streakStep_claim201 (p : Nat × Nat) : streakStep p (.claim 201) = (0, p.2) := rfl

theorem streakStep_claim401 (p : Nat × Nat) : streakStep p (.claim 401) = (0, p.2) := rfl

theorem streakStep_claim403 (p : Nat × Nat) :
    streakStep p (.claim 403) = (p.1 + 1, Nat.max p.2 (p.1 + 1)) := rfl

theorem streakStep_claim_other (p : Nat × Nat) (s : Nat) (h201 : s ≠ 201) (h401 : s ≠ 401)
    (h403 : s ≠ 403) : streakStep p (.claim s) = p := by
  simp [streakStep, isReset, isForbidden, h201, h401, h403]

theorem streakStep_fetchErr (p : Nat × Nat) (msg : String) :
    streakStep p (.fetchErr msg) = if goContains msg "401" then (0, p.2) else p := by
  simp [streakStep, isReset, isForbidden]

/-- Invariant of one batch pass: the claim loop's counter agrees with the
current forbidden streak of the event list, and the maximal streak stays
below 5 unless the pass halted, in which case it reached 5. -/
theorem runBatch_streak (batch : List Nat) : ∀ (cnt m : Nat),
    (∀ s ∈ batch, s < 1000) → cnt < 5 → m < 5 →
    ((runBatch cnt batch).res = .halt →
      5 ≤ (streakFold (cnt, m) (runBatch cnt batch).evs).2) ∧
    (∀ c, (runBatch cnt batch).res = .done c →
      c < 5 ∧ (streakFold (cnt, m) (runBatch cnt batch).evs).1 = c ∧
        (streakFold (cnt, m) (runBatch cnt batch).evs).2 < 5) ∧
    ((runBatch cnt batch).res = .broke →
      (streakFold (cnt, m) (runBatch cnt batch).evs).1 = 0 ∧
        (streakFold (cnt, m) (runBatch cnt batch).evs).2 < 5) := by
  induction batch with
  | nil =>
    intro cnt m _ hc hm
    refine ⟨fun h => ?_, fun c h => ?_, fun h => ?_⟩
    · simp [runBatch_nil] at h
    · have : cnt = c := by simpa [runBatch_nil] using h
      subst this
      exact ⟨hc, rfl, hm⟩
    · simp [runBatch_nil] at h
  | cons s batch ih =>
    intro cnt m hv hc hm
    have hs : s < 1000 := hv s (by simp)
    have hv' : ∀ x ∈ batch, x < 1000 := fun x hx => hv x (by simp [hx])
    by_cases e201 : s = 201
    · subst e201
      obtain ⟨ih1, ih2, ih3⟩ := ih 0 m hv' (by omega) hm
      rw [runBatch_success]
      simp only [streakFold_cons, streakStep_claim201]
      exact ⟨ih1, ih2, ih3⟩
    by_cases e401 : s = 401
    · subst e401
      rw [runBatch_401]
      refine ⟨fun h => ?_, fun c h => ?_, fun _ => ?_⟩
      · simp at h
      · simp at h
      · simp only [streakFold_cons, streakStep_claim401, streakFold_nil]
        exact ⟨by trivial, hm⟩
    by_cases e403 : s = 403
    · subst e403
      by_cases h5 : cnt + 1 ≥ 5
      · rw [runBatch_403_ge _ _ h5]
        refine ⟨fun _ => ?_, fun c h => ?_, fun h => ?_⟩
        · simp only [streakFold_cons, streakStep_claim403, streakFold_nil]
          exact le_trans h5 (Nat.le_max_right m (cnt + 1))
        · simp at h
        · simp at h
      · have h5' : cnt + 1 < 5 := by omega
        rw [runBatch_403_lt _ _ h5']
        obtain ⟨ih1, ih2, ih3⟩ :=
          ih (cnt + 1) (Nat.max m (cnt + 1)) hv' h5' (Nat.max_lt.mpr ⟨hm, h5'⟩)
        simp only [streakFold_cons, streakStep_claim403]
        exact ⟨ih1, ih2, ih3⟩
    · have hstep : runBatch cnt (s :: batch) =
          ⟨(runBatch cnt batch).res, .claim s :: (runBatch cnt batch).evs⟩ := by
        by_cases e412 : s = 412
        · subst e412; exact runBatch_412 cnt batch
        · exact runBatch_other s hs e201 e412 e401 e403 cnt batch
      obtain ⟨ih1, ih2, ih3⟩ := ih cnt m hv' hc hm
      rw [hstep]
      simp only [streakFold_cons, streakStep_claim_other _ s e201 e401 e403]
      exact ⟨ih1, ih2, ih3⟩

/-- Loop-level invariant: the run terminates exactly when the maximal
forbidden streak of its observable events reaches 5. -/
theorem mainLoopRun_streak (tr : List FetchResult) : ∀ (cnt m : Nat),
    validTrace tr = true → cnt < 5 → m < 5 →
    ((mainLoopRun cnt tr).term = true ↔
      5 ≤ (streakFold (cnt, m) (mainLoopRun cnt tr).evs).2) := by
  induction tr with
  | nil =>
    intro cnt m _ _ hm
    rw [mainLoopRun_nil]
    simp [streakFold_nil]
    omega
  | cons f rest ih =>
    intro cnt m hv hc hm
    have hv2 : validFetch f = true ∧ validTrace rest = true := by
      simpa [validTrace, List.all_cons] using hv
    cases f with
    | err msg =>
      rw [mainLoopRun_err]
      by_cases h1 : goContains msg "401" = true
      · have hstep : streakStep (cnt, m) (.fetchErr msg) = (0, m) := by
          rw [streakStep_fetchErr, if_pos h1]
        simp only [h1, if_true, streakFold_cons, hstep]
        exact ih 0 m hv2.2 (by omega) hm
      · have hstep : streakStep (cnt, m) (.fetchErr msg) = (cnt, m) := by
          rw [streakStep_fetchErr, if_neg h1]
        simp only [h1, if_false, streakFold_cons, hstep]
        exact ih cnt m hv2.2 hc hm
    | ok batch =>
      have hvb : ∀ s ∈ batch, s < 1000 := by
        simpa [validFetch, List.all_eq_true] using hv2.1
      obtain ⟨b1, b2, b3⟩ := runBatch_streak batch cnt m hvb hc hm
      cases hres : (runBatch cnt batch).res with
      | halt =>
        rw [mainLoopRun_ok_halt _ _ _ hres]
        exact ⟨fun _ => b1 hres, fun _ => rfl⟩
      | broke =>
        obtain ⟨hz, hlt⟩ := b3 hres
        rw [mainLoopRun_ok_broke _ _ _ hres]
        simp only [streakFold_append]
        have hpair : streakFold (cnt, m) (runBatch cnt batch).evs =
            (0, (streakFold (cnt, m) (runBatch cnt batch).evs).2) := Prod.ext hz rfl
        rw [hpair]
        exact ih 0 _ hv2.2 (by omega) hlt
      | done c =>
        obtain ⟨hclt, h1eq, h2lt⟩ := b2 c hres
        rw [mainLoopRun_ok_done _ _ _ _ hres]
        simp only [streakFold_append]
        have hpair : streakFold (cnt, m) (runBatch cnt batch).evs =
            (c, (streakFold (cnt, m) (runBatch cnt batch).evs).2) := Prod.ext h1eq rfl
        rw [hpair]
        exact ih c _ hv2.2 hclt h2lt

/-! ## Claim C1 -/

/-- C1 counterexample: on the trace whose attempted claim outcomes are
403, 403, 403, 403, 401, 403, the run observes five forbidden responses
with no intervening successful claim (the stated condition holds), yet
`mainLoop` does not return — the 401 reset the counter. -/
theorem C1_counterexample :
    specTermStated (mainLoopRun 0 [.ok [403, 403, 403, 403, 401], .ok [403]]).evs = true ∧
    (mainLoopRun 0 [.ok [403, 403, 403, 403, 401], .ok [403]]).term = false := by
  exact ⟨rfl, rfl⟩

/-- C1 (amended): `mainLoop` returns exactly when it observes 5 forbidden
(403) claim responses with no intervening successful claim **and no
intervening authorization failure** (a 401 claim outcome or a fetch error
mentioning 401, both of which reset the counter); it terminates in no
other case.  Statuses are assumed HTTP-shaped (< 1000) so that the
substring dispatch coincides with the status. -/
theorem C1_mainLoop_term_iff_five_forbidden (tr : List FetchResult)
    (hv : validTrace tr = true) :
    (mainLoopRun 0 tr).term = specTerm (mainLoopRun 0 tr).evs := by
  have h := mainLoopRun_streak tr 0 0 hv (by omega) (by omega)
  cases ht : (mainLoopRun 0 tr).term with
  | false =>
    have hn : ¬ 5 ≤ (streakFold (0, 0) (mainLoopRun 0 tr).evs).2 := by
      intro hle
      have hc := h.mpr hle
      rw [ht] at hc
      exact Bool.noConfusion hc
    simp only [specTerm]
    rw [decide_eq_false hn]
  | true =>
    simp only [specTerm]
    rw [decide_eq_true (h.mp ht)]

/-- C1 witness: a trace of five straight forbidden responses is valid,
terminates, and satisfies the amended condition. -/
theorem C1_mainLoop_term_iff_five_forbidden_witness :
    validTrace [.ok [403, 403, 403, 403, 403]] = true ∧
    (mainLoopRun 0 [.ok [403, 403, 403, 403, 403]]).term =
      specTerm (mainLoopRun 0 [.ok [403, 403, 403, 403, 403]]).evs :=
  ⟨rfl, C1_mainLoop_term_iff_five_forbidden _ rfl⟩

/-! ## Claim C2 -/

/-- C2 counterexample: after two forbidden responses and then a 412, the
counter is 2, not 0 — a 412 does not reset the consecutive-forbidden
counter. -/
theorem C2_counterexample :
    (runBatch 0 [403, 403, 412]).res = .done 2 ∧
    (runBatch 0 [403, 403, 412]).res ≠ .done 0 := by
  exact ⟨rfl, by decide⟩

/-- C2 (amended): the consecutive-forbidden counter is reset to zero by a
successful claim (201) and by an authorization failure (a 401 claim
outcome, whose batch break resumes the loop with counter 0, or a fetch
error mentioning 401); a 412 and every other non-403, non-401 claim
failure leave the counter unchanged. -/
theorem C2_counter_resets (cnt s : Nat) (rest : List Nat) (hs : s < 1000) :
    (s = 201 → runBatch cnt (s :: rest) =
      ⟨(runBatch 0 rest).res, .claim s :: (runBatch 0 rest).evs⟩) ∧
    (s = 401 → runBatch cnt (s :: rest) = ⟨.broke, [.claim s]⟩) ∧
    (∀ (batch : List Nat) (rest2 : List FetchResult),
      (runBatch cnt batch).res = .broke →
      mainLoopRun cnt (.ok batch :: rest2) =
        ⟨(mainLoopRun 0 rest2).term, (runBatch cnt batch).evs ++ (mainLoopRun 0 rest2).evs⟩) ∧
    (∀ (msg : String) (rest2 : List FetchResult), goContains msg "401" = true →
      mainLoopRun cnt (.err msg :: rest2) =
        ⟨(mainLoopRun 0 rest2).term, .fetchErr msg :: (mainLoopRun 0 rest2).evs⟩) ∧
    (s ≠ 201 → s ≠ 401 → s ≠ 403 →
      runBatch cnt (s :: rest) =
        ⟨(runBatch cnt rest).res, .claim s :: (runBatch cnt rest).evs⟩) := by
  refine ⟨?_, ?_, ?_, ?_, ?_⟩
  · rintro rfl; exact runBatch_success cnt rest
  · rintro rfl; exact runBatch_401 cnt rest
  · intro batch rest2 hb; exact mainLoopRun_ok_broke cnt batch rest2 hb
  · intro msg rest2 h1
    rw [mainLoopRun_err]
    simp only [h1, if_true]
  · intro h201 h401 h403
    by_cases h412 : s = 412
    · subst h412; exact runBatch_412 cnt rest
    · exact runBatch_other s hs h201 h412 h401 h403 cnt rest

/-- C2 witness: a 412 with the counter at 2 leaves the counter at 2. -/
theorem C2_counter_resets_witness :
    (412 : Nat) < 1000 ∧ runBatch 2 [412] = ⟨.done 2, [.claim 412]⟩ := by
  refine ⟨by omega, ?_⟩
  have h := (C2_counter_resets 2 412 [] (by omega)).2.2.2.2 (by omega) (by omega) (by omega)
  exact h.trans rfl

/-! ## Claim C3 -/

/-- C3 counterexample: after a 412 the loop still attempts the next
mission of the same batch — the batch is not abandoned (the `break` of
older variants is absent from this source). -/
theorem C3_counterexample :
    (runBatch 0 [412, 201]).evs = [.claim 412, .claim 201] ∧
    Ev.claim 201 ∈ (runBatch 0 [412, 201]).evs := by
  exact ⟨rfl, by decide⟩

/-- C3 (amended): a 412 claim outcome is logged and the loop continues
with the next mission of the same batch; it does not terminate the
poller and leaves the forbidden counter unchanged (a 412 alone ends the
batch pass with the counter it started with). -/
theorem C3_precondition_failed_logged_continues (cnt : Nat) (rest : List Nat) :
    runBatch cnt (412 :: rest) =
      ⟨(runBatch cnt rest).res, .claim 412 :: (runBatch cnt rest).evs⟩ ∧
    (runBatch cnt [412]).res = .done cnt :=
  ⟨runBatch_412 cnt rest, rfl⟩

/-! ## Claim C4 -/

/-- C4 counterexample: a task fetch answered 429, 429, 200 issues three
requests — the retry that was itself rate-limited is retried again, so
the same request is retried more than once. -/
theorem C4_counterexample :
    getTasksReq [⟨429, "", []⟩, ⟨429, "", []⟩, ⟨200, "", []⟩] = (.ok [], 3, [30, 30]) ∧
    ¬ (getTasksReq [⟨429, "", []⟩, ⟨429, "", []⟩, ⟨200, "", []⟩]).2.1 ≤ 2 := by
  exact ⟨rfl, by decide⟩

/-- C4 (amended): on every 429 response the operation waits (for the task
fetch, the parsed `Retry-After` hint when present and parseable, else 30
seconds; for registration, always 30 seconds) and retries the same
request — once per 429 received, repeating while 429s continue rather
than at most once overall; and rate-limited outcomes never reach the
forbidden counter: a 429 claim outcome leaves the counter and the loop
untouched, and no fetch outcome ever terminates the loop. -/
theorem C4_rate_limited_retry_per_429 :
    (∀ (pre : List TasksResp) (r : TasksResp) (rest : List TasksResp),
      (∀ x ∈ pre, x.status = 429) → r.status ≠ 429 →
      getTasksReq (pre ++ r :: rest) =
        (handleTasksResp r, pre.length + 1,
          pre.map (fun x => retryWaitTasks x.retryAfter))) ∧
    (∀ (slug : String) (pres : List Nat) (s : Nat) (rest : List Nat),
      (∀ x ∈ pres, x = 429) → s ≠ 429 →
      signupReq slug (pres ++ s :: rest) =
        (handleSignupResp slug s, pres.length + 1, List.replicate pres.length 30)) ∧
    (∀ (cnt : Nat) (rest : List Nat),
      runBatch cnt (429 :: rest) =
        ⟨(runBatch cnt rest).res, .claim 429 :: (runBatch cnt rest).evs⟩) ∧
    (∀ (cnt : Nat) (msg : String) (rest : List FetchResult),
      (mainLoopRun cnt (.err msg :: rest)).term =
        (mainLoopRun (if goContains msg "401" then 0 else cnt) rest).term) := by
  refine ⟨?_, ?_, ?_, ?_⟩
  · intro pre
    induction pre with
    | nil =>
      intro r rest _ hr
      simp [getTasksReq, hr]
    | cons x pre ih =>
      intro r rest hx hr
      have hx429 : x.status = 429 := hx x (by simp)
      have := ih r rest (fun y hy => hx y (by simp [hy])) hr
      simp [getTasksReq, hx429, this]
  · intro slug pres
    induction pres with
    | nil =>
      intro s rest _ hs
      simp [signupReq, hs]
    | cons x pres ih =>
      intro s rest hx hs
      have hx429 : x = 429 := hx x (by simp)
      have := ih s rest (fun y hy => hx y (by simp [hy])) hs
      simp [signupReq, hx429, this, List.replicate_succ]
  · intro cnt rest
    rfl
  · intro cnt msg rest
    rfl

/-- C4 witness: one 429 with hint "7" waits 7 seconds and the retry's 200
ends the fetch after two requests; one 429 on signup waits 30 and the
retry's 200 ends it after two requests. -/
theorem C4_rate_limited_retry_per_429_witness :
    ((∀ x ∈ [(⟨429, "7", []⟩ : TasksResp)], x.status = 429) ∧
      getTasksReq [⟨429, "7", []⟩, ⟨200, "", []⟩] = (.ok [], 2, [7])) ∧
    ((∀ x ∈ [(429 : Nat)], x = 429) ∧
      signupReq "a" [429, 200] = (.ok (), 2, [30])) := by
  refine ⟨⟨by decide, ?_⟩, ⟨by decide, ?_⟩⟩
  · have h := C4_rate_limited_retry_per_429.1 [⟨429, "7", []⟩] ⟨200, "", []⟩ []
      (by decide) (by decide)
    exact h.trans rfl
  · have h := C4_rate_limited_retry_per_429.2.1 "a" [429] 200 [] (by decide) (by decide)
    exact h.trans rfl

/-! ## Target-poller invariants -/

theorem countSignup_nil (slug : String) : countSignup slug [] = 0 := rfl

theorem countSignup_cons_signup (slug t : String) (evs : List TEv) :
    countSignup slug (.signup t :: evs) =
      countSignup slug evs + (if t = slug then 1 else 0) := by
  simp only [countSignup, List.countP_cons]
  by_cases h : t = slug <;> simp [h]

theorem countSignup_cons_logged (slug msg : String) (evs : List TEv) :
    countSignup slug (.logged msg :: evs) = countSignup slug evs := by
  simp [countSignup, List.countP_cons]

theorem countSignup_cons_refresh (slug : String) (evs : List TEv) :
    countSignup slug (.refresh :: evs) = countSignup slug evs := by
  simp [countSignup, List.countP_cons]

theorem countSignup_append (slug : String) (l1 l2 : List TEv) :
    countSignup slug (l1 ++ l2) = countSignup slug l1 + countSignup slug l2 := by
  simp [countSignup, List.countP_append]

theorem countSignup_signupLog (slug t : String) (s : Nat) (evs : List TEv) :
    countSignup slug (signupLog t s ++ evs) = countSignup slug evs := by
  cases h : signupMsg t s <;>
    simp [signupLog, h, countSignup_cons_logged]

theorem signup_notin_signupLog (slug t : String) (s : Nat) :
    TEv.signup slug ∉ signupLog t s := by
  cases h : signupMsg t s <;> simp [signupLog, h]

theorem refresh_notin_signupLog (t : String) (s : Nat) :
    TEv.refresh ∉ signupLog t s := by
  cases h : signupMsg t s <;> simp [signupLog, h]

theorem registerNew_nil (sres : String → Nat) (known : List String) :
    registerNew sres known [] = (known, []) := rfl

theorem registerNew_mem (sres : String → Nat) {known : List String} {t : Target}
    (ts : List Target) (h : t.slug ∈ known) :
    registerNew sres known (t :: ts) = registerNew sres known ts := by
  simp [registerNew, h]

theorem registerNew_new (sres : String → Nat) {known : List String} {t : Target}
    (ts : List Target) (h : t.slug ∉ known) :
    registerNew sres known (t :: ts) =
      ((registerNew sres (t.slug :: known) ts).1,
        .signup t.slug :: (signupLog t.slug (sres t.slug) ++
          (registerNew sres (t.slug :: known) ts).2)) := by
  simp [registerNew, h]

/-- Invariants of the registration pass: a slug already in the known set
is never signed up; no slug is signed up more than once; a signed-up slug
ends up in the known set; the known set only grows. -/
theorem registerNew_inv (sres : String → Nat) (ts : List Target) :
    ∀ (known : List String) (slug : String),
    (slug ∈ known → countSignup slug (registerNew sres known ts).2 = 0) ∧
    countSignup slug (registerNew sres known ts).2 ≤ 1 ∧
    (TEv.signup slug ∈ (registerNew sres known ts).2 →
      slug ∈ (registerNew sres known ts).1) ∧
    (∀ x ∈ known, x ∈ (registerNew sres known ts).1) := by
  induction ts with
  | nil =>
    intro known slug
    simp [registerNew_nil, countSignup_nil]
  | cons t ts ih =>
    intro known slug
    by_cases hmem : t.slug ∈ known
    · rw [registerNew_mem sres ts hmem]
      exact ih known slug
    · obtain ⟨i1, i2, i3, i4⟩ := ih (t.slug :: known) slug
      rw [registerNew_new sres ts hmem]
      refine ⟨?_, ?_, ?_, ?_⟩
      · intro hk
        have hne : t.slug ≠ slug := fun e => hmem (e ▸ hk)
        rw [countSignup_cons_signup, countSignup_signupLog, if_neg hne,
          i1 (by simp [hk])]
      · rw [countSignup_cons_signup, countSignup_signupLog]
        by_cases he : t.slug = slug
        · rw [if_pos he, i1 (by simp [he])]
        · rw [if_neg he]
          have := i2
          omega
      · intro hin
        rcases List.mem_cons.mp hin with he | hin2
        · have hts : slug = t.slug := by simpa [TEv.signup.injEq] using he
          subst hts
          exact i4 t.slug (by simp)
        · rcases List.mem_append.mp hin2 with hlog | ho
          · exact absurd hlog (signup_notin_signupLog slug t.slug (sres t.slug))
          · exact i3 ho
      · intro x hx
        exact i4 x (by simp [hx])

theorem refresh_notin_registerNew (sres : String → Nat) (ts : List Target) :
    ∀ (known : List String), TEv.refresh ∉ (registerNew sres known ts).2 := by
  induction ts with
  | nil =>
    intro known
    simp [registerNew_nil]
  | cons t ts ih =>
    intro known
    by_cases hmem : t.slug ∈ known
    · rw [registerNew_mem sres ts hmem]
      exact ih known
    · rw [registerNew_new sres ts hmem]
      intro hin
      rcases List.mem_cons.mp hin with he | hin2
      · exact TEv.noConfusion he
      · rcases List.mem_append.mp hin2 with hlog | ho
        · exact refresh_notin_signupLog t.slug (sres t.slug) hlog
        · exact ih (t.slug :: known) ho

/-- The same invariants, lifted to one poll cycle. -/
theorem pollCycle_inv (sres : String → Nat) (known : List String) (f : TFetch)
    (slug : String) :
    (slug ∈ known → countSignup slug (pollCycle sres known f).2 = 0) ∧
    countSignup slug (pollCycle sres known f).2 ≤ 1 ∧
    (TEv.signup slug ∈ (pollCycle sres known f).2 →
      slug ∈ (pollCycle sres known f).1) ∧
    (∀ x ∈ known, x ∈ (pollCycle sres known f).1) := by
  cases f with
  | err msg =>
    by_cases h1 : goContains msg "401" = true <;>
      simp [pollCycle, h1, countSignup_cons_refresh, countSignup_cons_logged, countSignup_nil]
  | ok ts =>
    exact registerNew_inv sres ts known slug

theorem pollTargetsRun_cons (known : List String) (f : TFetch) (sres : String → Nat)
    (rest : List (TFetch × (String → Nat))) :
    pollTargetsRun known ((f, sres) :: rest) =
      ((pollTargetsRun (pollCycle sres known f).1 rest).1,
        (pollCycle sres known f).2 ++ (pollTargetsRun (pollCycle sres known f).1 rest).2) := rfl

/-- The same invariants, lifted to a whole run of poll cycles. -/
theorem pollTargetsRun_inv (tr : List (TFetch × (String → Nat))) :
    ∀ (known : List String) (slug : String),
    (slug ∈ known → countSignup slug (pollTargetsRun known tr).2 = 0) ∧
    countSignup slug (pollTargetsRun known tr).2 ≤ 1 ∧
    (TEv.signup slug ∈ (pollTargetsRun known tr).2 →
      slug ∈ (pollTargetsRun known tr).1) ∧
    (∀ x ∈ known, x ∈ (pollTargetsRun known tr).1) := by
  induction tr with
  | nil =>
    intro known slug
    simp [pollTargetsRun, countSignup_nil]
  | cons cy rest ih =>
    obtain ⟨f, sres⟩ := cy
    intro known slug
    obtain ⟨c1, c2, c3, c4⟩ := pollCycle_inv sres known f slug
    obtain ⟨r1, r2, r3, r4⟩ := ih (pollCycle sres known f).1 slug
    rw [pollTargetsRun_cons]
    refine ⟨?_, ?_, ?_, ?_⟩
    · intro hk
      rw [countSignup_append, c1 hk, r1 (c4 slug hk)]
    · rw [countSignup_append]
      by_cases hc0 : countSignup slug (pollCycle sres known f).2 = 0
      · rw [hc0]
        simpa using r2
      · have hpos : 0 < countSignup slug (pollCycle sres known f).2 :=
          Nat.pos_of_ne_zero hc0
        have hmemev : TEv.signup slug ∈ (pollCycle sres known f).2 := by
          obtain ⟨a, ha, hpa⟩ := List.countP_pos_iff.mp hpos
          have : a = TEv.signup slug := of_decide_eq_true hpa
          rwa [this] at ha
        have hr0 := r1 (c3 hmemev)
        rw [hr0]
        omega
    · intro hin
      rcases List.mem_append.mp hin with hc | hr
      · exact r4 slug (c3 hc)
      · exact r3 hr
    · intro x hx
      exact r4 x (c4 x hx)

/-! ## Claim C5 -/

/-- C5: over the process lifetime (the known-slugs set starts empty), each
slug triggers at most one `signupTarget` call, for every sequence of
target-poll cycles and every signup-outcome oracle — even if the fetch
returns the slug on every cycle. -/
theorem C5_slug_registered_at_most_once (tr : List (TFetch × (String → Nat)))
    (slug : String) :
    countSignup slug (pollTargetsRun [] tr).2 ≤ 1 :=
  (pollTargetsRun_inv tr [] slug).2.1

/-! ## Claim C6 -/

/-- C6 counterexample: a cycle whose fetch succeeds and whose signup call
for the new slug "a" answers 401 performs the signup and merely logs the
`unauthorized (401)` error — no `refreshToken` prompt and no broadcast
happen. -/
theorem C6_counterexample :
    pollCycle (fun _ => 401) [] (.ok [⟨"a"⟩]) =
      (["a"], [.signup "a", .logged "unauthorized (401)"]) ∧
    TEv.refresh ∉ (pollCycle (fun _ => 401) [] (.ok [⟨"a"⟩])).2 := by
  exact ⟨rfl, by decide⟩

/-- C6 (amended): the Target Poller triggers the interactive credential
refresh exactly when the target fetch itself fails with an error
mentioning 401; a 401 returned by `signupTarget` is only logged and never
triggers a refresh. -/
theorem C6_refresh_only_on_fetch_401 (sres : String → Nat) (known : List String)
    (f : TFetch) :
    TEv.refresh ∈ (pollCycle sres known f).2 ↔
      ∃ msg, f = .err msg ∧ goContains msg "401" = true := by
  cases f with
  | err msg =>
    by_cases h1 : goContains msg "401" = true
    · simp [pollCycle, h1]
    · simp only [pollCycle, h1, if_false]
      constructor
      · intro hin
        simp at hin
      · rintro ⟨msg2, hmsg, h401⟩
        obtain rfl : msg = msg2 := by simpa using hmsg
        exact absurd h401 h1
  | ok ts =>
    constructor
    · intro hin
      exact absurd hin (refresh_notin_registerNew sres ts known)
    · rintro ⟨msg, hmsg, -⟩
      exact TFetch.noConfusion hmsg

/-! ## Claim C7 -/

/-- C7: an absent or empty `-t` value makes `main` print the usage message
and exit with status 1 (non-zero) without starting either loop; a
non-empty value starts both loops with that credential. -/
theorem C7_missing_token_usage_exit (t : String) (v : Bool) :
    (t = "" → mainRun t v = .usageExit true 1 ∧ (1 : Nat) ≠ 0) ∧
    (t ≠ "" → mainRun t v = .started t t v) := by
  constructor
  · rintro rfl
    exact ⟨rfl, by omega⟩
  · intro h
    simp [mainRun, h]

/-- C7 witness at both a missing and a supplied credential. -/
theorem C7_missing_token_usage_exit_witness :
    (mainRun "" false = .usageExit true 1 ∧ (1 : Nat) ≠ 0) ∧
    mainRun "x" true = .started "x" "x" true :=
  ⟨(C7_missing_token_usage_exit "" false).1 rfl,
    (C7_missing_token_usage_exit "x" true).2 (by decide)⟩

/-! ## Claim C8 -/

/-- C8: a slug whose registration was attempted is in the known-slugs set
afterwards (it was inserted by `LoadOrStore` before the signup call and is
never removed, whatever `signupTarget` returned), and therefore its
registration is never retried in any later cycle. -/
theorem C8_failed_slug_never_retried (known : List String)
    (tr1 tr2 : List (TFetch × (String → Nat))) (slug : String)
    (h : TEv.signup slug ∈ (pollTargetsRun known tr1).2) :
    slug ∈ (pollTargetsRun known tr1).1 ∧
    TEv.signup slug ∉ (pollTargetsRun (pollTargetsRun known tr1).1 tr2).2 := by
  have h1 := (pollTargetsRun_inv tr1 known slug).2.2.1 h
  refine ⟨h1, fun hin => ?_⟩
  have h0 := (pollTargetsRun_inv tr2 (pollTargetsRun known tr1).1 slug).1 h1
  have hpos : 0 < countSignup slug (pollTargetsRun (pollTargetsRun known tr1).1 tr2).2 :=
    List.countP_pos_iff.mpr ⟨_, hin, by simp⟩
  omega

/-- C8 witness: slug "a", whose signup failed with a 500, is in the set
and is not signed up again when re-discovered in a later cycle. -/
theorem C8_failed_slug_never_retried_witness :
    TEv.signup "a" ∈ (pollTargetsRun [] [(TFetch.ok [⟨"a"⟩], fun _ => 500)]).2 ∧
    ("a" ∈ (pollTargetsRun [] [(TFetch.ok [⟨"a"⟩], fun _ => 500)]).1 ∧
      TEv.signup "a" ∉
        (pollTargetsRun (pollTargetsRun [] [(TFetch.ok [⟨"a"⟩], fun _ => 500)]).1
          [(TFetch.ok [⟨"a"⟩], fun _ => 200)]).2) :=
  ⟨by decide, C8_failed_slug_never_retried [] _ _ "a" (by decide)⟩

/-! ## Claim C9 -/

/-- C9: when the claim loop enters a 403 with the counter at 4 (the 5th
consecutive forbidden response, mid-batch), `mainLoop` returns at once:
the events end with that claim, no remaining mission of the batch is
attempted, and no later fetch cycle of the trace is processed. -/
theorem C9_fifth_forbidden_stops_immediately (cnt : Nat) (pre post : List Nat)
    (rest : List FetchResult) (h : (runBatch cnt pre).res = .done 4) :
    mainLoopRun cnt (.ok (pre ++ 403 :: post) :: rest) =
      ⟨true, (runBatch cnt pre).evs ++ [.claim 403]⟩ := by
  have happ := runBatch_append pre cnt 4 (403 :: post) h
  have h403 : runBatch 4 (403 :: post) = ⟨.halt, [.claim 403]⟩ :=
    runBatch_403_ge 4 post (by omega)
  have hres : (runBatch cnt (pre ++ 403 :: post)).res = .halt := by
    rw [happ, h403]
  rw [mainLoopRun_ok_halt _ _ _ hres, happ, h403]

/-- C9 witness: four forbidden responses then the fifth mid-batch; the
remaining 201 of the batch and the whole second cycle are never touched. -/
theorem C9_fifth_forbidden_stops_immediately_witness :
    (runBatch 0 [403, 403, 403, 403]).res = .done 4 ∧
    mainLoopRun 0 [.ok ([403, 403, 403, 403] ++ 403 :: [201]), .ok [201]] =
      ⟨true, [.claim 403, .claim 403, .claim 403, .claim 403, .claim 403]⟩ := by
  refine ⟨rfl, ?_⟩
  have h := C9_fifth_forbidden_stops_immediately 0 [403, 403, 403, 403] [201]
    [.ok [201]] rfl
  exact h.trans rfl

/-! ## Claim C10 -/

theorem head?_dropWhile_false (p : Char → Bool) :
    ∀ (l : List Char) (c : Char), (l.dropWhile p).head? = some c → p c = false := by
  intro l
  induction l with
  | nil =>
    intro c h
    simp [List.dropWhile] at h
  | cons a l ih =>
    intro c h
    by_cases hp : p a = true
    · rw [List.dropWhile_cons_of_pos hp] at h
      exact ih c h
    · rw [List.dropWhile_cons_of_neg hp] at h
      obtain rfl : a = c := by simpa using h
      simpa using hp

/-- Splitting off one `dropWhile` pass: the dropped prefix is all-`p`, and
the remainder does not start with a `p` character. -/
theorem dropWhile_split (p : Char → Bool) (l : List Char) :
    l = l.takeWhile p ++ l.dropWhile p ∧
    (l.takeWhile p).all p = true ∧
    (l.dropWhile p).head?.all (fun c => !p c) = true := by
  refine ⟨(List.takeWhile_append_dropWhile p l).symm, ?_, ?_⟩
  · rw [List.all_eq_true]
    intro x hx
    exact List.mem_takeWhile_imp hx
  · cases hh : (l.dropWhile p).head? with
    | none => rfl
    | some c =>
      have hc := head?_dropWhile_false p l c hh
      simp [Option.all, hc]

/-- The two-sided trim of Go `strings.TrimSpace`, at the level of
character lists: the input splits into an all-`p` prefix, the trimmed
core, and an all-`p` suffix, and the core neither starts nor ends with a
`p` character. -/
theorem trim_split (p : Char → Bool) (l : List Char) :
    ∃ a b : List Char,
      l = a ++ ((l.dropWhile p).reverse.dropWhile p).reverse ++ b ∧
      a.all p = true ∧ b.all p = true ∧
      ((l.dropWhile p).reverse.dropWhile p).reverse.head?.all (fun c => !p c) = true ∧
      ((l.dropWhile p).reverse.dropWhile p).reverse.getLast?.all (fun c => !p c) = true := by
  obtain ⟨ha1, ha2, ha3⟩ := dropWhile_split p l
  obtain ⟨hb1, hb2, hb3⟩ := dropWhile_split p (l.dropWhile p).reverse
  refine ⟨l.takeWhile p, ((l.dropWhile p).reverse.takeWhile p).reverse, ?_, ha2, ?_, ?_, ?_⟩
  · have hmid : l.dropWhile p =
        ((l.dropWhile p).reverse.dropWhile p).reverse ++
          ((l.dropWhile p).reverse.takeWhile p).reverse := by
      calc l.dropWhile p = (l.dropWhile p).reverse.reverse :=
            (List.reverse_reverse (l.dropWhile p)).symm
        _ = ((l.dropWhile p).reverse.takeWhile p ++
              (l.dropWhile p).reverse.dropWhile p).reverse := by rw [← hb1]
        _ = ((l.dropWhile p).reverse.dropWhile p).reverse ++
              ((l.dropWhile p).reverse.takeWhile p).reverse := by rw [List.reverse_append]
    calc l = l.takeWhile p ++ l.dropWhile p := ha1
      _ = l.takeWhile p ++ (((l.dropWhile p).reverse.dropWhile p).reverse ++
            ((l.dropWhile p).reverse.takeWhile p).reverse) := by rw [← hmid]
      _ = l.takeWhile p ++ ((l.dropWhile p).reverse.dropWhile p).reverse ++
            ((l.dropWhile p).reverse.takeWhile p).reverse := by rw [List.append_assoc]
  · rw [List.all_reverse]
    exact hb2
  · cases hres : ((l.dropWhile p).reverse.dropWhile p).reverse with
    | nil => rfl
    | cons r rs =>
      have hb1' : (l.dropWhile p).reverse =
          (l.dropWhile p).reverse.takeWhile p ++ (l.dropWhile p).reverse.dropWhile p := hb1
      have hmid : l.dropWhile p =
          ((l.dropWhile p).reverse.dropWhile p).reverse ++
            ((l.dropWhile p).reverse.takeWhile p).reverse := by
        calc l.dropWhile p = (l.dropWhile p).reverse.reverse :=
              (List.reverse_reverse (l.dropWhile p)).symm
          _ = ((l.dropWhile p).reverse.takeWhile p ++
                (l.dropWhile p).reverse.dropWhile p).reverse := by rw [← hb1']
          _ = ((l.dropWhile p).reverse.dropWhile p).reverse ++
                ((l.dropWhile p).reverse.takeWhile p).reverse := by rw [List.reverse_append]
      have hhead : (l.dropWhile p).head? = some r := by
        rw [hmid, hres]
        rfl
      have hr := head?_dropWhile_false p l r hhead
      simp [Option.all, hr]
  · have hrev : ((l.dropWhile p).reverse.dropWhile p).reverse.getLast? =
        ((l.dropWhile p).reverse.dropWhile p).head? := by
      rw [← List.head?_reverse, List.reverse_reverse]
    rw [hrev]
    exact hb3

/-- C10: the replacement credential returned by `refreshToken` is the line
read from stdin with all leading and trailing whitespace — including the
terminating newline — removed: the line splits as whitespace ++ token ++
whitespace, and the token neither starts nor ends with a whitespace
character. -/
theorem C10_refreshToken_trims_whitespace (line : String) :
    ∃ a b : List Char,
      line.data = a ++ (refreshTokenModel line).data ++ b ∧
      a.all goIsSpace = true ∧
      b.all goIsSpace = true ∧
      (refreshTokenModel line).data.head?.all (fun c => !goIsSpace c) = true ∧
      (refreshTokenModel line).data.getLast?.all (fun c => !goIsSpace c) = true :=
  trim_split goIsSpace line.data

end MissionBot
